import Mathlib

/-
Verification of the hexagram casting and derived-state engine of
src/cc-iching/hooks/iching.ts, as a shallow embedding in Lean.

Machine integers in the source are small (bytes, 6-bit codes, 1..64
identifiers), so they are modelled as `Nat`.  Entropy (`randomBytes`) is
modelled as an explicit byte stream `Nat → Nat` (or a single byte argument),
consumed at the same positions as in the source.  The strings produced by the
formatting functions are abstracted to the structured value `Emit` recording
which reading was emitted with which identifiers and style; the literal glyph
text and the randomly drawn commentary style of a derived reading are not
needed by any property below.
-/

namespace IChing

/-- Cast result for a single line (interface `Line` of the source). -/
structure Line where
  value : Nat
  isYang : Bool
  isChanging : Bool
deriving DecidableEq, Repr, Inhabited

/-- Embedding of `castLine`, with the three drawn bytes made explicit:
`coins = [b0 & 1, b1 & 1, b2 & 1]`, each coin maps to 3 (heads) or 2 (tails),
the sum is the line value. -/
def castLine (b0 b1 b2 : Nat) : Line :=
  let coins := [b0 % 2, b1 % 2, b2 % 2]
  let sum := (coins.map (fun c => if c ≠ 0 then 3 else 2)).foldl (· + ·) 0
  { value := sum
    isYang := sum == 7 || sum == 9
    isChanging := sum == 6 || sum == 9 }

/-- Embedding of `linesToBinary`: line 1 (index 0, bottom) is the LSB,
yang = 1, yin = 0. -/
def linesToBinary (lines : List Line) : Nat :=
  (List.range 6).foldl
    (fun binary i =>
      if (lines.getD i default).isYang then binary ||| (1 <<< i) else binary)
    0

/-- The static `BINARY_TO_KW` table of the source, verbatim. -/
def BINARY_TO_KW : List Nat :=
  [2, 24, 7, 19, 15, 36, 46, 11, 16, 51, 40, 54, 62, 55, 32, 34, 8, 3, 29, 60,
   39, 63, 48, 5, 45, 17, 47, 58, 31, 49, 28, 43, 23, 27, 4, 41, 52, 22, 18, 26,
   35, 21, 64, 38, 56, 30, 50, 14, 20, 42, 59, 61, 53, 37, 57, 9, 12, 25, 6, 10,
   33, 13, 44, 1]

/-- Embedding of `nuclear`: the source builds the new sequence from 0-indexed
lines `[1, 2, 3, 2, 3, 4]` of the original. -/
def nuclear (lines : List Line) : Nat :=
  let nuclearLines : List Line :=
    [lines.getD 1 default, lines.getD 2 default, lines.getD 3 default,
     lines.getD 2 default, lines.getD 3 default, lines.getD 4 default]
  BINARY_TO_KW.getD (linesToBinary nuclearLines) 0

/-- Embedding of `shadow`: invert every line's polarity, then re-encode. -/
def shadow (lines : List Line) : Nat :=
  let inverted := lines.map (fun l => { l with isYang := !l.isYang })
  BINARY_TO_KW.getD (linesToBinary inverted) 0

/-- Embedding of `mirror`: reverse the line order, then re-encode. -/
def mirror (lines : List Line) : Nat :=
  BINARY_TO_KW.getD (linesToBinary lines.reverse) 0

/-- The `l` (line pattern) field of each of the 64 entries of the source's
`GUA` table, in order (entry for King Wen number kw at index kw - 1).  The
commentary string fields of `GUA` are not used by any claim and are omitted. -/
def GUA_l : List (List Nat) :=
  [[1,1,1,1,1,1], [0,0,0,0,0,0], [1,0,0,0,1,0], [0,1,0,0,0,1],
   [1,1,1,0,1,0], [0,1,0,1,1,1], [0,1,0,0,0,0], [0,0,0,0,1,0],
   [1,1,1,0,1,1], [1,1,0,1,1,1], [1,1,1,0,0,0], [0,0,0,1,1,1],
   [1,0,1,1,1,1], [1,1,1,1,0,1], [0,0,1,0,0,0], [0,0,0,1,0,0],
   [1,0,0,1,1,0], [0,1,1,0,0,1], [1,1,0,0,0,0], [0,0,0,0,1,1],
   [1,0,0,1,0,1], [1,0,1,0,0,1], [0,0,0,0,0,1], [1,0,0,0,0,0],
   [1,0,0,1,1,1], [1,1,1,0,0,1], [1,0,0,0,0,1], [0,1,1,1,1,0],
   [0,1,0,0,1,0], [1,0,1,1,0,1], [0,0,1,1,1,0], [0,1,1,1,0,0],
   [0,0,1,1,1,1], [1,1,1,1,0,0], [0,0,0,1,0,1], [1,0,1,0,0,0],
   [1,0,1,0,1,1], [1,1,0,1,0,1], [0,0,1,0,1,0], [0,1,0,1,0,0],
   [1,1,0,0,0,1], [1,0,0,0,1,1], [1,1,1,1,1,0], [0,1,1,1,1,1],
   [0,0,0,1,1,0], [0,1,1,0,0,0], [0,1,0,1,1,0], [0,1,1,0,1,0],
   [1,0,1,1,1,0], [0,1,1,1,0,1], [1,0,0,1,0,0], [0,0,1,0,0,1],
   [0,0,1,0,1,1], [1,1,0,1,0,0], [1,0,1,1,0,0], [0,0,1,1,0,1],
   [0,1,1,0,1,1], [1,1,0,1,1,0], [0,1,0,0,1,1], [1,1,0,0,1,0],
   [1,1,0,0,1,1], [0,0,1,1,0,0], [1,0,1,0,1,0], [0,1,0,1,0,1]]

/-- The 6-bit index of a stored line pattern, as computed by the source's
`verifyBinaryTable`: `lower = l0 + 2 l1 + 4 l2`, `upper = l3 + 2 l4 + 4 l5`,
`index = lower + 8 upper`. -/
def guaIndex (l : List Nat) : Nat :=
  let lower := l.getD 0 0 + l.getD 1 0 * 2 + l.getD 2 0 * 4
  let upper := l.getD 3 0 + l.getD 4 0 * 2 + l.getD 5 0 * 4
  lower + upper * 8

/-- Lift a stored 0/1 line pattern to `Line` values (stable lines, so only the
polarity matters for encoding, as the source notes for `shadow`). -/
def linesOfPattern (pat : List Nat) : List Line :=
  pat.map (fun b => { value := if b = 1 then 7 else 8, isYang := b == 1, isChanging := false })

/-- The stored line pattern of a King Wen identifier, lifted to `Line`s. -/
def linesOfKW (kw : Nat) : List Line :=
  linesOfPattern (GUA_l.getD (kw - 1) [])

/-- The mirror transformation on identifiers: apply the source's `mirror` to
the identifier's stored line pattern. -/
def mirrorKW (kw : Nat) : Nat := mirror (linesOfKW kw)

/-- The shadow transformation on identifiers: apply the source's `shadow` to
the identifier's stored line pattern. -/
def shadowKW (kw : Nat) : Nat := shadow (linesOfKW kw)

/-- Modelled from the spec: the nuclear construction parametrised by the list
of 1-indexed source positions, for comparison with the source's `nuclear`
(the spec's words: build a new 6-line sequence from the given positions of
the original, encode it, and map it through the canonical table). -/
def nuclearFromPositions (pos : List Nat) (lines : List Line) : Nat :=
  BINARY_TO_KW.getD (linesToBinary (pos.map (fun p => lines.getD (p - 1) default))) 0

/-- Full hexagram cast result (interface `Cast` of the source). -/
structure Cast where
  lines : List Line
  primary : Nat
  becoming : Option Nat
  changingPositions : List Nat
  nuclear : Nat
  shadow : Nat
  mirror : Nat
deriving DecidableEq, Repr

/-- The `forEach` loop of `castHexagram` that pushes `i + 1` for every
changing line, as a recursion carrying the 0-based index. -/
def changingPositionsAux : Nat → List Line → List Nat
  | _, [] => []
  | i, l :: rest =>
    if l.isChanging then (i + 1) :: changingPositionsAux (i + 1) rest
    else changingPositionsAux (i + 1) rest

/-- Embedding of `castHexagram`, with the entropy stream made explicit:
line i is cast from bytes 3i, 3i+1, 3i+2 of the stream (each `castLine`
call draws 3 fresh bytes in the source). -/
def castHexagram (bs : Nat → Nat) : Cast :=
  let lines := (List.range 6).map
    (fun i => castLine (bs (3 * i)) (bs (3 * i + 1)) (bs (3 * i + 2)))
  let primaryBinary := linesToBinary lines
  let primary := BINARY_TO_KW.getD primaryBinary 0
  let hasChanging := lines.any (fun l => l.isChanging)
  let becoming : Option Nat :=
    if hasChanging then
      let becomingLines := lines.map
        (fun l => { l with isYang := if l.isChanging then !l.isYang else l.isYang })
      some (BINARY_TO_KW.getD (linesToBinary becomingLines) 0)
    else none
  let changingPositions : List Nat :=
    if hasChanging then changingPositionsAux 0 lines else []
  { lines := lines
    primary := primary
    becoming := becoming
    changingPositions := changingPositions
    nuclear := nuclear lines
    shadow := shadow lines
    mirror := mirror lines }

/-- The 8 equally likely parity triples of three uniformly random bytes. -/
def parityTriples : List (Nat × Nat × Nat) :=
  [(0, 0, 0), (0, 0, 1), (0, 1, 0), (0, 1, 1),
   (1, 0, 0), (1, 0, 1), (1, 1, 0), (1, 1, 1)]

/-- Commentary style keys (type `Style` of the source). -/
inductive Style where
  | dx | tu | en | te | w
deriving DecidableEq, Repr

/-- Derived hexagram types (type `DerivedType` of the source). -/
inductive DerivedType where
  | nuclear | shadow | mirror | becoming
deriving DecidableEq, Repr

/-- Abstraction of the one-line string built by the formatting functions:
which reading was emitted and with which data.  The static text lookup and
the randomly drawn commentary style of a derived reading are not modelled. -/
inductive Emit where
  | reading (primary : Nat) (style : Style) (becoming : Option Nat)
      (changingPositions : List Nat)
  | derived (t : DerivedType) (kw : Nat)
deriving DecidableEq, Repr

/-- Embedding of `formatReading`: the primary reading in the given style,
with the becoming identifier and changing positions when present. -/
def formatReading (cast : Cast) (style : Style) : Emit :=
  .reading cast.primary style cast.becoming cast.changingPositions

/-- Embedding of `formatDerived`: the self-mirroring special case emits a
mirror reading of the primary itself; otherwise the requested derived
identifier is emitted, with `none` exactly when `becoming` is requested but
absent (the source returns the empty, falsy string there). -/
def formatDerived (cast : Cast) (t : DerivedType) : Option Emit :=
  if t = .mirror ∧ cast.mirror = cast.primary then
    some (.derived .mirror cast.primary)
  else
    match (match t with
           | .becoming => cast.becoming
           | .nuclear => some cast.nuclear
           | .shadow => some cast.shadow
           | .mirror => some cast.mirror) with
    | none => none
    | some kw => some (.derived t kw)

/-- The ten disjoint outcomes of the weighted reveal selection in `main`. -/
inductive Band where
  | dx | tu | en | te | w | nuclear | shadow | mirror | becoming | silent
deriving DecidableEq, Repr

/-- The branch selected by the byte drawn on a same-day invocation after the
first reveal: `r = byte / 256` compared against the thresholds of the
if-chain in `main`, written with the literal decimal constants. -/
def bandOf (rbyte : Nat) : Band :=
  let r : ℚ := (rbyte : ℚ) / 256
  if r < 0.04 then .dx
  else if r < 0.08 then .tu
  else if r < 0.12 then .en
  else if r < 0.16 then .te
  else if r < 0.2 then .w
  else if r < 0.225 then .nuclear
  else if r < 0.25 then .shadow
  else if r < 0.275 then .mirror
  else if r < 0.3 then .becoming
  else .silent

/-- Integer restatement of the band thresholds (`byte / 256 < c` iff
`byte < ceil (256 c)`), used to evaluate the band of each byte. -/
def bandOfN (rbyte : Nat) : Band :=
  if rbyte < 11 then .dx
  else if rbyte < 21 then .tu
  else if rbyte < 31 then .en
  else if rbyte < 41 then .te
  else if rbyte < 52 then .w
  else if rbyte < 58 then .nuclear
  else if rbyte < 64 then .shadow
  else if rbyte < 71 then .mirror
  else if rbyte < 77 then .becoming
  else .silent

/-- The output assignment of the else-branch of `main` (record already
shown): the action the selected band performs. -/
def revealOutput (cast : Cast) (rbyte : Nat) : Option Emit :=
  match bandOf rbyte with
  | .dx => some (formatReading cast .dx)
  | .tu => some (formatReading cast .tu)
  | .en => some (formatReading cast .en)
  | .te => some (formatReading cast .te)
  | .w => some (formatReading cast .w)
  | .nuclear => formatDerived cast .nuclear
  | .shadow => formatDerived cast .shadow
  | .mirror => formatDerived cast .mirror
  | .becoming => formatDerived cast .becoming
  | .silent => none

/-- Cache structure for the daily reading (interface `DailyCache`). -/
structure DailyCache where
  date : String
  cast : Cast
  shown : Bool
deriving DecidableEq, Repr

/-- History entry, one per line of the JSONL log (interface `HistoryEntry`). -/
structure HistoryEntry where
  date : String
  cast : Cast
deriving DecidableEq, Repr

/-- Embedding of `appendToHistory`: append one entry carrying the cache's
date and cast to the end of the history log. -/
def appendToHistory (history : List HistoryEntry) (cache : DailyCache) : List HistoryEntry :=
  history ++ [{ date := cache.date, cast := cache.cast }]

/-- The externally visible result of one invocation: the record written to
the current-day slot (`none` when the invocation aborted before `Bun.write`),
the history log afterwards, and the emitted output (at most one line). -/
structure MainResult where
  written : Option DailyCache
  history : List HistoryEntry
  out : Option Emit
deriving DecidableEq, Repr

/-- The body of `main` inside the try block.  `loaded` models reading the
current-day slot: `.ok none` when the file does not exist, `.error ()` when
`file.json()` throws on a corrupt file, `.ok (some c)` for a parsed record.
`entropy` feeds a fresh cast when one is made; `rbyte` is the selection byte
of the reveal branch.  JS truthiness of `cache?.date` makes the history
append conditional on the stored date being nonempty. -/
def mainBody (loaded : Except Unit (Option DailyCache)) (history : List HistoryEntry)
    (date : String) (entropy : Nat → Nat) (rbyte : Nat) : Except Unit MainResult :=
  match loaded with
  | .error e => .error e
  | .ok cache0 =>
    let s : DailyCache × List HistoryEntry :=
      match cache0 with
      | none => ({ date := date, cast := castHexagram entropy, shown := false }, history)
      | some c =>
        if c.date ≠ date then
          ({ date := date, cast := castHexagram entropy, shown := false },
           if c.date ≠ "" then appendToHistory history c else history)
        else (c, history)
    let cache1 := s.1
    let history1 := s.2
    if cache1.shown = false then
      .ok { written := some { cache1 with shown := true }, history := history1,
            out := some (formatReading cache1.cast .dx) }
    else
      .ok { written := some cache1, history := history1,
            out := revealOutput cache1.cast rbyte }

/-- Embedding of `main`: the outer try/catch converts any failure into a
silent neutral exit — no output, nothing written, history untouched. -/
def main (loaded : Except Unit (Option DailyCache)) (history : List HistoryEntry)
    (date : String) (entropy : Nat → Nat) (rbyte : Nat) : MainResult :=
  match mainBody loaded history date entropy rbyte with
  | .ok r => r
  | .error _ => { written := none, history := history, out := none }

end IChing

namespace IChing

/-- Every 6-bit encoding of a line list is below 64. -/
theorem linesToBinary_lt (lines : List Line) : linesToBinary lines < 64 := by
  have h6 : List.range 6 = [0, 1, 2, 3, 4, 5] := rfl
  unfold linesToBinary
  rw [h6]
  simp only [List.foldl]
  split_ifs <;> decide

/-- Every entry of the canonical table, hence every looked-up identifier at an
index below 64, lies in [1, 64]. -/
theorem toKW_range (b : Nat) (hb : b < 64) :
    1 ≤ BINARY_TO_KW.getD b 0 ∧ BINARY_TO_KW.getD b 0 ≤ 64 := by
  revert b
  decide

/-- If some line is changing, the pushed position list is nonempty. -/
theorem changingPositionsAux_ne_nil (lines : List Line) (i : Nat)
    (h : lines.any (fun l => l.isChanging) = true) :
    changingPositionsAux i lines ≠ [] := by
  induction lines generalizing i with
  | nil => simp at h
  | cons a t ih =>
    rw [List.any_cons] at h
    unfold changingPositionsAux
    by_cases ha : a.isChanging
    · simp [ha]
    · simp only [ha, Bool.false_or] at h
      simp only [ha, if_false]
      exact ih (i + 1) h

/-- C2: the static table is a bijection from the 64 binary codes onto the
identifiers 1..64 and round-trips with the stored line patterns: encoding
`GUA[kw-1].l` and looking the code up yields kw, and the pattern stored for
`BINARY_TO_KW[b]` encodes back to b. -/
theorem binary_table_bijection :
    BINARY_TO_KW.length = 64 ∧
    BINARY_TO_KW.Nodup ∧
    (∀ b ∈ List.range 64,
      1 ≤ BINARY_TO_KW.getD b 0 ∧ BINARY_TO_KW.getD b 0 ≤ 64) ∧
    (∀ k ∈ List.range 64,
      BINARY_TO_KW.getD (guaIndex (GUA_l.getD k [])) 0 = k + 1) ∧
    (∀ b ∈ List.range 64,
      guaIndex (GUA_l.getD (BINARY_TO_KW.getD b 0 - 1) []) = b) := by
  refine ⟨rfl, by decide, by decide, by decide, by decide⟩

/-- C4: mirror is an involution on all 64 identifiers, and exactly 8 of the 64
identifiers are self-mirroring. -/
theorem mirror_involution_selfcount :
    (∀ k ∈ List.range 64, mirrorKW (mirrorKW (k + 1)) = k + 1) ∧
    ((List.range 64).filter (fun k => decide (mirrorKW (k + 1) = k + 1))).length = 8 := by
  exact ⟨by decide, by decide⟩

/-- C3 counterexample: the number of identifiers x with mirror(x) = shadow(x)
is not 4 (it is 8). -/
theorem locked_count_counterexample :
    ¬ ((List.range 64).filter
        (fun k => decide (mirrorKW (k + 1) = shadowKW (k + 1)))).length = 4 := by
  decide

/-- C3 amended: exactly 8 identifiers satisfy mirror(x) = shadow(x), namely
11, 12, 17, 18, 53, 54, 63, 64, and they occur in 4 reciprocal pairs
(mirror maps 11↔12, 17↔18, 53↔54, 63↔64, with no locked identifier fixed
by mirror). -/
theorem locked_pairs_amended :
    ((List.range 64).map (· + 1)).filter
        (fun kw => decide (mirrorKW kw = shadowKW kw))
      = [11, 12, 17, 18, 53, 54, 63, 64] ∧
    mirrorKW 11 = 12 ∧ mirrorKW 17 = 18 ∧ mirrorKW 53 = 54 ∧ mirrorKW 63 = 64 ∧
    (∀ kw ∈ [11, 12, 17, 18, 53, 54, 63, 64],
      mirrorKW kw ≠ kw ∧ mirrorKW (mirrorKW kw) = kw ∧
      mirrorKW kw ∈ [11, 12, 17, 18, 53, 54, 63, 64]) := by
  refine ⟨by decide, by decide, by decide, by decide, by decide, by decide⟩

/-- C2 witness: the bijection theorem instantiated at binary code 0 and King
Wen index 0. -/
theorem binary_table_bijection_witness :
    (0 ∈ List.range 64) ∧
    (1 ≤ BINARY_TO_KW.getD 0 0 ∧ BINARY_TO_KW.getD 0 0 ≤ 64) ∧
    BINARY_TO_KW.getD (guaIndex (GUA_l.getD 0 [])) 0 = 0 + 1 ∧
    guaIndex (GUA_l.getD (BINARY_TO_KW.getD 0 0 - 1) []) = 0 :=
  ⟨by decide, binary_table_bijection.2.2.1 0 (by decide),
   binary_table_bijection.2.2.2.1 0 (by decide),
   binary_table_bijection.2.2.2.2 0 (by decide)⟩

/-- C4 witness: the involution theorem instantiated at identifier 1. -/
theorem mirror_involution_selfcount_witness :
    (0 ∈ List.range 64) ∧ mirrorKW (mirrorKW (0 + 1)) = 0 + 1 :=
  ⟨by decide, mirror_involution_selfcount.1 0 (by decide)⟩

/-- C3 amended witness: the pairing clause instantiated at locked
identifier 11. -/
theorem locked_pairs_amended_witness :
    (11 ∈ [11, 12, 17, 18, 53, 54, 63, 64]) ∧
    (mirrorKW 11 ≠ 11 ∧ mirrorKW (mirrorKW 11) = 11 ∧
      mirrorKW 11 ∈ [11, 12, 17, 18, 53, 54, 63, 64]) :=
  ⟨by decide, locked_pairs_amended.2.2.2.2.2 11 (by decide)⟩

/-- C1 counterexample: on the lines built from the pattern [1,0,0,0,1,0], the
source's `nuclear` yields 23, while the claim's construction (1-indexed
positions [2,3,4,2,3,4]) yields 2. -/
theorem nuclear_positions_counterexample :
    nuclear (linesOfPattern [1, 0, 0, 0, 1, 0]) = 23 ∧
    nuclearFromPositions [2, 3, 4, 2, 3, 4] (linesOfPattern [1, 0, 0, 0, 1, 0]) = 2 ∧
    nuclear (linesOfPattern [1, 0, 0, 0, 1, 0]) ≠
      nuclearFromPositions [2, 3, 4, 2, 3, 4] (linesOfPattern [1, 0, 0, 0, 1, 0]) := by
  refine ⟨by decide, by decide, by decide⟩

/-- C1 amended: for every sequence of lines, the nuclear identifier is the one
obtained from the original's 1-indexed positions [2,3,4,3,4,5] (0-indexed
[1,2,3,2,3,4]), encoded and mapped through the canonical table; on the test
pattern [1,0,0,0,1,0] it equals 23. -/
theorem nuclear_positions_amended :
    (∀ lines : List Line, nuclear lines = nuclearFromPositions [2, 3, 4, 3, 4, 5] lines) ∧
    nuclear (linesOfPattern [1, 0, 0, 0, 1, 0]) = 23 := by
  exact ⟨fun lines => rfl, by decide⟩

/-- C7: `castLine` always returns a value in {6, 7, 8, 9}, it depends only on
the parities of the three drawn bytes, and over the 8 equally likely parity
triples the values 6, 7, 8, 9 occur with counts 1, 3, 3, 1. -/
theorem castLine_distribution :
    (∀ b0 b1 b2 : Nat,
      ((castLine b0 b1 b2).value = 6 ∨ (castLine b0 b1 b2).value = 7 ∨
       (castLine b0 b1 b2).value = 8 ∨ (castLine b0 b1 b2).value = 9) ∧
      castLine b0 b1 b2 = castLine (b0 % 2) (b1 % 2) (b2 % 2)) ∧
    (parityTriples.filter (fun t => decide ((castLine t.1 t.2.1 t.2.2).value = 6))).length = 1 ∧
    (parityTriples.filter (fun t => decide ((castLine t.1 t.2.1 t.2.2).value = 7))).length = 3 ∧
    (parityTriples.filter (fun t => decide ((castLine t.1 t.2.1 t.2.2).value = 8))).length = 3 ∧
    (parityTriples.filter (fun t => decide ((castLine t.1 t.2.1 t.2.2).value = 9))).length = 1 := by
  refine ⟨fun b0 b1 b2 => ?_, by decide, by decide, by decide, by decide⟩
  rcases Nat.mod_two_eq_zero_or_one b0 with h0 | h0 <;>
    rcases Nat.mod_two_eq_zero_or_one b1 with h1 | h1 <;>
      rcases Nat.mod_two_eq_zero_or_one b2 with h2 | h2 <;>
        exact ⟨by simp [castLine, h0, h1, h2], by simp [castLine, h0, h1, h2]⟩

/-- C5: every Cast produced by `castHexagram` has its primary, nuclear,
shadow, and mirror identifiers in [1, 64]; its becoming identifier is present
iff the changing-position list is nonempty, iff some line is changing; and
the becoming identifier, when present, is also in [1, 64]. -/
theorem cast_invariants (bs : Nat → Nat) :
    (1 ≤ (castHexagram bs).primary ∧ (castHexagram bs).primary ≤ 64) ∧
    (1 ≤ (castHexagram bs).nuclear ∧ (castHexagram bs).nuclear ≤ 64) ∧
    (1 ≤ (castHexagram bs).shadow ∧ (castHexagram bs).shadow ≤ 64) ∧
    (1 ≤ (castHexagram bs).mirror ∧ (castHexagram bs).mirror ≤ 64) ∧
    ((castHexagram bs).becoming.isSome ↔ (castHexagram bs).changingPositions ≠ []) ∧
    ((castHexagram bs).becoming.isSome ↔
      (castHexagram bs).lines.any (fun l => l.isChanging) = true) ∧
    (∀ b ∈ (castHexagram bs).becoming, 1 ≤ b ∧ b ≤ 64) := by
  have key : ∀ ls : List Line,
      1 ≤ BINARY_TO_KW.getD (linesToBinary ls) 0 ∧
        BINARY_TO_KW.getD (linesToBinary ls) 0 ≤ 64 :=
    fun ls => toKW_range _ (linesToBinary_lt ls)
  have hbe : (castHexagram bs).becoming =
      (if (castHexagram bs).lines.any (fun l => l.isChanging) then
        some (BINARY_TO_KW.getD (linesToBinary ((castHexagram bs).lines.map
          (fun l => { l with isYang := if l.isChanging then !l.isYang else l.isYang }))) 0)
      else none) := rfl
  have hcp : (castHexagram bs).changingPositions =
      (if (castHexagram bs).lines.any (fun l => l.isChanging) then
        changingPositionsAux 0 (castHexagram bs).lines else []) := rfl
  refine ⟨key _, key _, key _, key _, ?_, ?_, ?_⟩
  · rw [hbe, hcp]
    by_cases hch : (castHexagram bs).lines.any (fun l => l.isChanging) = true
    · simp only [hch, if_true, Option.isSome_some, true_iff]
      exact changingPositionsAux_ne_nil _ 0 hch
    · simp [hch]
  · rw [hbe]
    by_cases hch : (castHexagram bs).lines.any (fun l => l.isChanging) = true
    · simp [hch]
    · simp [hch]
  · rw [hbe]
    by_cases hch : (castHexagram bs).lines.any (fun l => l.isChanging) = true
    · simp only [hch, if_true, Option.mem_def, Option.some.injEq]
      intro b hb
      exact hb ▸ key _
    · simp [hch]

/-- C5 witness: the invariants instantiated on the cast drawn from the
all-zero byte stream (all six lines old yin, so becoming is present and
equals 1). -/
theorem cast_invariants_witness :
    ((1 : Nat) ∈ (castHexagram (fun _ => 0)).becoming) ∧ (1 ≤ (1 : Nat) ∧ (1 : Nat) ≤ 64) :=
  ⟨rfl, (cast_invariants (fun _ => 0)).2.2.2.2.2.2 1 rfl⟩

/-- A byte-over-256 fraction is below a rational threshold exactly when the
byte is below the threshold's ceiling at denominator 256. -/
theorem div256_lt_iff (b k : Nat) (c : ℚ) (h1 : (k : ℚ) - 1 < c * 256) (h2 : c * 256 ≤ (k : ℚ)) :
    ((b : ℚ) / 256 < c) ↔ b < k := by
  rw [div_lt_iff₀ (by norm_num : (0 : ℚ) < 256)]
  constructor
  · intro h
    have hb : (b : ℚ) < (k : ℚ) := lt_of_lt_of_le h h2
    exact_mod_cast hb
  · intro h
    have hb : (b : ℚ) ≤ (k : ℚ) - 1 := by
      have hk : (b + 1 : ℚ) ≤ (k : ℚ) := by exact_mod_cast h
      linarith
    exact lt_of_le_of_lt hb h1

/-- The reveal if-chain of `main` selects the same band as the integer
threshold restatement. -/
theorem bandOf_eq_bandOfN (b : Nat) : bandOf b = bandOfN b := by
  unfold bandOf bandOfN
  simp only [div256_lt_iff b 11 0.04 (by norm_num) (by norm_num),
    div256_lt_iff b 21 0.08 (by norm_num) (by norm_num),
    div256_lt_iff b 31 0.12 (by norm_num) (by norm_num),
    div256_lt_iff b 41 0.16 (by norm_num) (by norm_num),
    div256_lt_iff b 52 0.2 (by norm_num) (by norm_num),
    div256_lt_iff b 58 0.225 (by norm_num) (by norm_num),
    div256_lt_iff b 64 0.25 (by norm_num) (by norm_num),
    div256_lt_iff b 71 0.275 (by norm_num) (by norm_num),
    div256_lt_iff b 77 0.3 (by norm_num) (by norm_num)]

/-- C6: when the stored record's date is an actual (nonempty) date different
from the current date, the invocation appends exactly one history entry with
the old record's date and cast, creates a brand-new cast for today, emits the
primary reading in the fixed dx style, and persists the record with the shown
flag set. -/
theorem day_rollover (c : DailyCache) (history : List HistoryEntry) (date : String)
    (entropy : Nat → Nat) (rbyte : Nat) (hne : c.date ≠ date) (hnonempty : c.date ≠ "") :
    main (.ok (some c)) history date entropy rbyte =
      { written := some { date := date, cast := castHexagram entropy, shown := true },
        history := history ++ [{ date := c.date, cast := c.cast }],
        out := some (formatReading (castHexagram entropy) .dx) } := by
  simp [main, mainBody, appendToHistory, hne, hnonempty]

/-- C6 witness: the day-rollover theorem applied to a concrete record dated
the previous day. -/
theorem day_rollover_witness :
    main (.ok (some { date := "2024-01-01", cast := castHexagram (fun _ => 0), shown := true }))
        [] "2024-01-02" (fun _ => 0) 0 =
      { written := some { date := "2024-01-02", cast := castHexagram (fun _ => 0), shown := true },
        history := [{ date := "2024-01-01", cast := castHexagram (fun _ => 0) }],
        out := some (formatReading (castHexagram (fun _ => 0)) .dx) } :=
  day_rollover { date := "2024-01-01", cast := castHexagram (fun _ => 0), shown := true }
    [] "2024-01-02" (fun _ => 0) 0 (by decide) (by decide)

/-- C10: on a same-day invocation with the shown flag already true, the
record written back is exactly the record loaded and the history log is
untouched. -/
theorem same_day_frame (c : DailyCache) (history : List HistoryEntry) (date : String)
    (entropy : Nat → Nat) (rbyte : Nat) (hdate : c.date = date) (hshown : c.shown = true) :
    (main (.ok (some c)) history date entropy rbyte).written = some c ∧
    (main (.ok (some c)) history date entropy rbyte).history = history := by
  simp [main, mainBody, hdate, hshown]

/-- C10 witness: the frame theorem applied to a concrete already-shown record
on its own day. -/
theorem same_day_frame_witness :
    (main (.ok (some { date := "2024-01-01", cast := castHexagram (fun _ => 0), shown := true }))
        [] "2024-01-01" (fun _ => 0) 0).written =
      some { date := "2024-01-01", cast := castHexagram (fun _ => 0), shown := true } ∧
    (main (.ok (some { date := "2024-01-01", cast := castHexagram (fun _ => 0), shown := true }))
        [] "2024-01-01" (fun _ => 0) 0).history = [] :=
  same_day_frame { date := "2024-01-01", cast := castHexagram (fun _ => 0), shown := true }
    [] "2024-01-01" (fun _ => 0) 0 rfl rfl

/-- C9 counterexample: on a corrupt store the invocation writes no record at
all (and emits nothing), contradicting the claim that a fresh record is
created and persisted in that case. -/
theorem corrupt_store_counterexample :
    (main (.error ()) [] "2024-01-01" (fun _ => 0) 0).written = none ∧
    (main (.error ()) [] "2024-01-01" (fun _ => 0) 0).out = none ∧
    (main (.error ()) [] "2024-01-01" (fun _ => 0) 0).history = [] :=
  ⟨rfl, rfl, rfl⟩

/-- C9 amended: a missing store is treated as no prior record — a fresh
record is cast, persisted with the shown flag set, and the primary reading is
emitted; a corrupt store makes the invocation abort silently — nothing is
written, nothing is emitted, the history is untouched — and in neither case
is an error propagated. -/
theorem store_fallback_amended (history : List HistoryEntry) (date : String)
    (entropy : Nat → Nat) (rbyte : Nat) :
    main (.ok none) history date entropy rbyte =
      { written := some { date := date, cast := castHexagram entropy, shown := true },
        history := history,
        out := some (formatReading (castHexagram entropy) .dx) } ∧
    main (.error ()) history date entropy rbyte =
      { written := none, history := history, out := none } :=
  ⟨rfl, rfl⟩

/-- C8 counterexample: the dx commentary band contains 11 of the 256 byte
values, and 11/256 is not the claimed exact 4%. -/
theorem reveal_band_counterexample :
    ((List.range 256).filter (fun b => decide (bandOf b = Band.dx))).length = 11 ∧
    ¬ ((11 : ℚ) / 256 = 4 / 100) := by
  constructor
  · simp only [bandOf_eq_bandOfN]
    decide
  · norm_num

set_option maxRecDepth 8192 in
/-- C8 amended: over the 256 equally likely selection bytes, the 5 commentary
bands have widths 11, 10, 10, 10, 11 and the 4 derived bands 6, 6, 7, 6, so
some output branch is selected for 77 of 256 bytes (≈ 30.1%) and the
invocation stays silent for 179 of 256 (≈ 69.9%). -/
theorem reveal_bands_amended :
    ((List.range 256).filter (fun b => decide (bandOf b = Band.dx))).length = 11 ∧
    ((List.range 256).filter (fun b => decide (bandOf b = Band.tu))).length = 10 ∧
    ((List.range 256).filter (fun b => decide (bandOf b = Band.en))).length = 10 ∧
    ((List.range 256).filter (fun b => decide (bandOf b = Band.te))).length = 10 ∧
    ((List.range 256).filter (fun b => decide (bandOf b = Band.w))).length = 11 ∧
    ((List.range 256).filter (fun b => decide (bandOf b = Band.nuclear))).length = 6 ∧
    ((List.range 256).filter (fun b => decide (bandOf b = Band.shadow))).length = 6 ∧
    ((List.range 256).filter (fun b => decide (bandOf b = Band.mirror))).length = 7 ∧
    ((List.range 256).filter (fun b => decide (bandOf b = Band.becoming))).length = 6 ∧
    ((List.range 256).filter (fun b => decide (bandOf b ≠ Band.silent))).length = 77 ∧
    ((List.range 256).filter (fun b => decide (bandOf b = Band.silent))).length = 179 := by
  simp only [bandOf_eq_bandOfN]
  refine ⟨by decide, by decide, by decide, by decide, by decide, by decide,
    by decide, by decide, by decide, by decide, by decide⟩

end IChing
